import Mathlib

/-!
# Verification of the Tiled `Preferences` facade (src/tiled/preferences.cpp)

A shallow embedding of the settings/preferences facade of the Tiled map
editor.  The persistent key-value store (`QSettings` behind the helpers
`get`, `setValue`, `contains`, `remove` declared in `preferences.h`) is
modelled as an association list from string keys to typed variant values.
External collaborators (file system, file watcher, serializer, timer) are
modelled by explicit parameters or small state records.
-/

namespace Tiled

/-- A typed settings value, modelling the subset of `QVariant` used by
`preferences.cpp`.  Dates model `QDate` as an optional Julian day number
(`none` is an invalid date). -/
inductive QVariant where
  | vBool : Bool → QVariant
  | vInt : Int → QVariant
  | vReal : Rat → QVariant
  | vStr : String → QVariant
  | vStrList : List String → QVariant
  | vDate : Option Int → QVariant
  deriving DecidableEq, Repr

/-- Modelled from the spec: the "persistent key-value store under
hierarchical string keys" backing the preferences (the `QSettings` instance
wrapped by helpers in `preferences.h`, which is not part of the analyzed
source).  An association list; the first binding of a key is its value. -/
abbrev Store := List (String × QVariant)

/-- Modelled from the spec: reading a raw value from the store
(`Preferences::value`). -/
def Store.value (s : Store) (k : String) : Option QVariant :=
  (List.find? (fun p => p.1 = k) s).map (fun p => p.2)

/-- Modelled from the spec: writing a value (`Preferences::setValue`); the
store is read-after-write consistent, so the new binding shadows any old
binding of the same key. -/
def Store.setValue (s : Store) (k : String) (v : QVariant) : Store :=
  (k, v) :: List.filter (fun p => p.1 ≠ k) s

/-- Modelled from the spec: `Preferences::contains`, presence of a key. -/
def Store.contains (s : Store) (k : String) : Bool :=
  (s.value k).isSome

/-- Modelled from the spec: `Preferences::remove`; like `QSettings::remove`
it drops the key itself and every key below it in the hierarchy (all keys
starting with `k ++ "/"`). -/
def Store.remove (s : Store) (k : String) : Store :=
  List.filter (fun p => ¬(p.1 = k ∨ (k ++ "/").isPrefixOf p.1)) s

/-- Modelled from the spec: the typed getter `get<bool>(key, default)`;
"missing keys (resolved via defaults)". -/
def Store.getBool (s : Store) (k : String) (d : Bool) : Bool :=
  match s.value k with
  | some (QVariant.vBool b) => b
  | _ => d

/-- Modelled from the spec: the typed getter `get<int>(key, default)`. -/
def Store.getInt (s : Store) (k : String) (d : Int) : Int :=
  match s.value k with
  | some (QVariant.vInt n) => n
  | _ => d

/-- Modelled from the spec: the typed getter `get<qreal>(key, default)`. -/
def Store.getReal (s : Store) (k : String) (d : Rat) : Rat :=
  match s.value k with
  | some (QVariant.vReal q) => q
  | _ => d

/-- Modelled from the spec: the typed getter `get<QString>(key)`, whose
default is the empty string. -/
def Store.getString (s : Store) (k : String) : String :=
  match s.value k with
  | some (QVariant.vStr t) => t
  | _ => ""

/-- Modelled from the spec: the typed getter `get<QStringList>(key)`, whose
default is the empty list. -/
def Store.getStringList (s : Store) (k : String) : List String :=
  match s.value k with
  | some (QVariant.vStrList l) => l
  | _ => []

/-- Modelled from the spec: the typed getter `get<QDate>(key)`, whose
default is an invalid date. -/
def Store.getDate (s : Store) (k : String) : Option Int :=
  match s.value k with
  | some (QVariant.vDate d) => d
  | _ => none

/-! ## Safe-saving flag (C1) -/

/-- `Preferences::safeSavingEnabled`: reads key `"SafeSavingEnabled"` with
default `true` (preferences.cpp lines 445-448). -/
def safeSavingEnabled (s : Store) : Bool :=
  s.getBool "SafeSavingEnabled" true

/-- `Preferences::setSafeSavingEnabled`: writes key
`"Storage/SafeSavingEnabled"` (preferences.cpp lines 450-454; the call to
`SaveFile::setSafeSavingEnabled` has no effect on the store). -/
def setSafeSavingEnabled (s : Store) (enabled : Bool) : Store :=
  s.setValue "Storage/SafeSavingEnabled" (QVariant.vBool enabled)

/-! ## Typed getters with defaults (C7) -/

/-- `Preferences::showGrid` (preferences.cpp lines 211-214). -/
def showGrid (s : Store) : Bool :=
  s.getBool "Interface/ShowGrid" true

/-- `Preferences::gridFine` (preferences.cpp lines 256-259). -/
def gridFine (s : Store) : Int :=
  s.getInt "Interface/GridFine" 4

/-- `Preferences::objectLineWidth` (preferences.cpp lines 261-264). -/
def objectLineWidth (s : Store) : Rat :=
  s.getReal "Interface/ObjectLineWidth" 2

/-- `Preferences::runCount` (preferences.cpp lines 630-633). -/
def runCount (s : Store) : Int :=
  s.getInt "Install/RunCount" 0

/-! ## Object types read from legacy settings lists (C2) -/

/-- An object type: a named, colored object category (`ObjectType` from
`object.h`; the color is kept as the string it is constructed from). -/
structure ObjectType where
  name : String
  color : String
  deriving DecidableEq, Repr

/-- The legacy fallback of the constructor (preferences.cpp lines 81-89):
when reading the object-types file failed, the object-type list is rebuilt
from the two settings lists `ObjectTypes/Names` and `ObjectTypes/Colors`:
if `names` is non-empty, the i-th name is paired with the i-th color for
every `i` below `min names.length colors.length`. -/
def objectTypesFromLegacy (names colors : List String) : List ObjectType :=
  if names.isEmpty then []
  else
    (List.range (min names.length colors.length)).map
      (fun i => ObjectType.mk (names.getD i "") (colors.getD i ""))

/-! ## Startup migration of recent files and map states (C3) -/

/-- The "migrate preferences that need manual handling" step of the
constructor (preferences.cpp lines 145-172): executed when the current
session is the default session file.  The legacy data is copied into the
in-memory session, the session is saved (`mSession.save()` is an external
file write, its outcome is the parameter `saveOk`), and the legacy keys
`recentFiles` and `MapEditor/MapStates` are removed only when the save
succeeded. -/
def migrateRecentFilesStep (s : Store) (isDefaultSession saveOk : Bool) : Store :=
  if isDefaultSession then
    if saveOk then (s.remove "recentFiles").remove "MapEditor/MapStates"
    else s
  else s

/-! ## Donation dialog (C9) -/

/-- `Preferences::isPatron` (preferences.cpp lines 635-638). -/
def isPatron (s : Store) : Bool :=
  s.getBool "Install/IsPatron" false

/-- `Preferences::donationDialogTime` (preferences.cpp lines 660-663). -/
def donationDialogTime (s : Store) : Option Int :=
  s.getDate "Install/DonationDialogTime"

/-- `Preferences::shouldShowDonationDialog` (preferences.cpp lines
646-658).  `today` models `QDate::currentDate()` as a Julian day; for
Julian days, `d1.daysTo(d2) = d2 - d1`, and `daysTo` from an invalid date
never reaches the final return because the code bails out on an invalid
dialog time first. -/
def shouldShowDonationDialog (s : Store) (today : Int) : Bool :=
  if isPatron s then false
  else if runCount s < 7 then false
  else
    match donationDialogTime s with
    | none => false
    | some d => decide (today - d ≥ 0)

/-! ## Debounced session saving (C4) -/

/-- The state of the debounced session writer: `deadline` is the absolute
time in milliseconds at which the active single-shot timer fires (`none`
when the timer is inactive), `writes` counts completed session-file
writes. -/
structure SessionTimerState where
  deadline : Option Nat
  writes : Nat
  deriving DecidableEq, Repr

/-- `Preferences::saveSessionNow` (preferences.cpp lines 739-744): stops
the timer and writes the session file. -/
def saveSessionNow (st : SessionTimerState) : SessionTimerState :=
  { deadline := none, writes := st.writes + 1 }

/-- `Preferences::saveSession` (preferences.cpp lines 733-737) called at
time `now`: if the timer is not active, start it with the 1000 ms
single-shot interval configured in the constructor (lines 98-100);
otherwise do nothing. -/
def saveSession (now : Nat) (st : SessionTimerState) : SessionTimerState :=
  match st.deadline with
  | none => { st with deadline := some (now + 1000) }
  | some _ => st

/-- Passage of time up to the instant `now`: the active single-shot timer
fires (`saveSessionNow`) once its deadline has been reached. -/
def tickTo (now : Nat) (st : SessionTimerState) : SessionTimerState :=
  match st.deadline with
  | some d => if d ≤ now then saveSessionNow st else st
  | none => st

/-- A sequence of `saveSession` calls at the given times, time advancing
to each call instant before the call is made. -/
def runSaveCalls (st : SessionTimerState) : List Nat → SessionTimerState
  | [] => st
  | t :: ts => runSaveCalls (saveSession t (tickTo t st)) ts

/-! ## Reload of the object-types file on external change (C5) -/

/-- `Preferences::objectTypesFileChangedOnDisk` (preferences.cpp lines
872-883).  Timestamps (`QDateTime`) are modelled as `Option Nat`, `none`
being the invalid timestamp (the initial value of
`mObjectTypesFileLastSaved`); the serializer's outcome is the parameter
`readResult`, `none` when `readObjectTypes` fails.  Returns the new
in-memory object types and whether `objectTypesChanged` was emitted by
`setObjectTypes` (lines 549-553). -/
def objectTypesFileChangedOnDisk (lastModified lastSaved : Option Nat)
    (readResult : Option (List ObjectType)) (current : List ObjectType) :
    List ObjectType × Bool :=
  if lastModified = lastSaved then (current, false)
  else
    match readResult with
    | some tys => (tys, true)
    | none => (current, false)

/-! ## Plugin enabled/disabled lists (C6) -/

/-- The per-plugin state, `PluginState` from `pluginmanager.h`. -/
inductive PluginState where
  | PluginEnabled
  | PluginDisabled
  | PluginDefault
  | PluginStatic
  deriving DecidableEq, Repr

/-- The in-memory map from plugin file name to state
(`PluginManager::pluginStates`). -/
abbrev PluginStateMap := List (String × PluginState)

/-- Modelled from the spec: `PluginManager::setPluginState`, updating the
"in-memory map" of per-file plugin states (pluginmanager.cpp is not part
of the analyzed source); the new binding replaces any old one. -/
def setPluginState (m : PluginStateMap) (fileName : String)
    (st : PluginState) : PluginStateMap :=
  (fileName, st) :: m.filter (fun p => p.1 ≠ fileName)

/-- The state recorded for a plugin file in the in-memory map. -/
def PluginStateMap.stateOf (m : PluginStateMap) (f : String) : Option PluginState :=
  (List.find? (fun p => p.1 = f) m).map (fun p => p.2)

/-- `Preferences::setPluginEnabled` (preferences.cpp lines 805-833): sets
the in-memory state of `fileName`, then rebuilds the two persisted lists
in full from the whole state map and writes them. -/
def setPluginEnabled (s : Store) (states : PluginStateMap)
    (fileName : String) (enabled : Bool) : Store × PluginStateMap :=
  let states' := setPluginState states fileName
    (if enabled then PluginState.PluginEnabled else PluginState.PluginDisabled)
  let disabledPlugins :=
    (states'.filter (fun p => p.2 = PluginState.PluginDisabled)).map (fun p => p.1)
  let enabledPlugins :=
    (states'.filter (fun p => p.2 = PluginState.PluginEnabled)).map (fun p => p.1)
  ((s.setValue "Plugins/Disabled" (QVariant.vStrList disabledPlugins)).setValue
      "Plugins/Enabled" (QVariant.vStrList enabledPlugins),
   states')

/-! ## Recent projects (C8) -/

/-- `MaxRecentFiles` from `preferences.h` (the header is not part of the
analyzed source; the claims use only that it bounds the list length, and
the upstream value is 8). -/
def MaxRecentFiles : Nat := 8

/-- `Preferences::addToRecentFileList` (preferences.cpp lines 746-758);
`absoluteFilePath` is the result of the external path computation
`QDir::cleanPath(QFileInfo(fileName).absoluteFilePath())`.  The trailing
`while size > MaxRecentFiles: removeLast` loop keeps exactly the first
`MaxRecentFiles` entries, i.e. `take`. -/
def addToRecentFileList (absoluteFilePath : String) (files : List String) :
    List String :=
  if absoluteFilePath.isEmpty then files
  else
    let files1 := files.filter (fun f => f ≠ absoluteFilePath)
    let files2 := absoluteFilePath :: files1
    files2.take MaxRecentFiles

/-- `Preferences::setLastPath` (preferences.cpp lines 617-623): a no-op on
an empty path. -/
def setLastPath (s : Store) (key : String) (path : String) : Store :=
  if path.isEmpty then s else s.setValue key (QVariant.vStr path)

/-- `Preferences::addRecentProject` (preferences.cpp lines 698-706).
`cleanAbs` models the external absolute-path computation used inside
`addToRecentFileList`. -/
def addRecentProject (cleanAbs : String → String) (s : Store)
    (fileName : String) : Store :=
  let s1 := setLastPath s "LastPaths/Project" fileName
  let files := s1.getStringList "Project/RecentProjects"
  let files' := addToRecentFileList (cleanAbs fileName) files
  s1.setValue "Project/RecentProjects" (QVariant.vStrList files')

/-! ## Object-types file selection and watching (C10) -/

/-- `Preferences::objectTypesFile` (preferences.cpp lines 845-852);
`dataLoc` models the external `QStandardPaths` writable data location. -/
def objectTypesFile (s : Store) (dataLoc : String) : String :=
  let file := s.getString "Storage/ObjectTypesFile"
  if file.isEmpty then dataLoc ++ "/objecttypes.xml" else file

/-- Modelled from the spec: `FileSystemWatcher::removePath` on the watched
set, kept as a duplicate-free list. -/
def removePath (w : List String) (p : String) : List String :=
  w.filter (fun q => q ≠ p)

/-- Modelled from the spec: `FileSystemWatcher::addPath`; a path already
watched is not added twice. -/
def addPath (w : List String) (p : String) : List String :=
  if p ∈ w then w else w ++ [p]

/-- `Preferences::setObjectTypesFile` (preferences.cpp lines 854-865):
a no-op when `fileName` equals the current `objectTypesFile()`; otherwise
the previous path is removed from the watcher (when non-empty), the new
value is written under `Storage/ObjectTypesFile`, and the new path is
added to the watcher. -/
def setObjectTypesFile (dataLoc : String) (s : Store) (w : List String)
    (fileName : String) : Store × List String :=
  let previousObjectTypesFile := objectTypesFile s dataLoc
  if previousObjectTypesFile = fileName then (s, w)
  else
    let w1 := if previousObjectTypesFile.isEmpty then w
              else removePath w previousObjectTypesFile
    (s.setValue "Storage/ObjectTypesFile" (QVariant.vStr fileName),
     addPath w1 fileName)

end Tiled

namespace Tiled

/-! ## Store lemmas -/

theorem Store.value_eq_none_iff (s : Store) (k : String) :
    Store.value s k = none ↔ ∀ p ∈ s, p.1 ≠ k := by
  simp [Store.value, Option.map_eq_none', List.find?_eq_none]

theorem Store.value_remove_of_removed (s : Store) (k k' : String)
    (h : k' = k ∨ (k ++ "/").isPrefixOf k') :
    Store.value (Store.remove s k) k' = none := by
  rw [Store.value_eq_none_iff]
  intro p hp hk
  have hmem := (List.mem_filter.mp hp).2
  simp only [decide_eq_true_eq] at hmem
  apply hmem
  rw [hk]
  exact h

theorem Store.value_remove_none_mono (s : Store) (k k' : String)
    (h : Store.value s k' = none) :
    Store.value (Store.remove s k) k' = none := by
  rw [Store.value_eq_none_iff] at h ⊢
  intro p hp
  exact h p (List.mem_of_mem_filter hp)

theorem Store.value_cons (p : String × QVariant) (t : Store) (k : String) :
    Store.value (p :: t) k = if p.1 = k then some p.2 else Store.value t k := by
  by_cases h : p.1 = k <;> simp [Store.value, List.find?_cons, h]

theorem Store.value_filter_ne (s : Store) (k k' : String) (h : k' ≠ k) :
    Store.value (List.filter (fun p => p.1 ≠ k) s) k' = Store.value s k' := by
  induction s with
  | nil => rfl
  | cons p t ih =>
      by_cases hpk : p.1 = k
      · rw [List.filter_cons, if_neg (by simp [hpk])]
        rw [ih, Store.value_cons,
          if_neg (fun hpk' => h (hpk.symm.trans hpk').symm)]
      · rw [List.filter_cons, if_pos (by simp [hpk])]
        rw [Store.value_cons, Store.value_cons, ih]

theorem Store.value_setValue_self (s : Store) (k : String) (v : QVariant) :
    Store.value (Store.setValue s k v) k = some v := by
  simp [Store.setValue, Store.value_cons]

theorem Store.value_setValue_other (s : Store) (k k' : String) (v : QVariant)
    (h : k' ≠ k) :
    Store.value (Store.setValue s k v) k' = Store.value s k' := by
  rw [Store.setValue, Store.value_cons, if_neg (fun hk => h hk.symm),
    Store.value_filter_ne s k k' h]

/-- **C1.** The claim asserts that for every boolean `b`, after
`setSafeSavingEnabled(b)`, `safeSavingEnabled()` returns `b`.  The code
violates this: the setter writes key `"Storage/SafeSavingEnabled"` while
the getter reads key `"SafeSavingEnabled"`, so on an empty store
`setSafeSavingEnabled(false)` is followed by `safeSavingEnabled()`
returning the default `true`, not `false`. -/
theorem safeSaving_not_read_after_write_consistent :
    safeSavingEnabled (setSafeSavingEnabled [] false) = true ∧
    ¬ (∀ (s : Store) (b : Bool), safeSavingEnabled (setSafeSavingEnabled s b) = b) := by
  refine ⟨by decide, fun h => ?_⟩
  have := h [] false
  simp [safeSavingEnabled, setSafeSavingEnabled, Store.getBool, Store.setValue,
    Store.value] at this

/-- **C7.** When its key is absent from the settings store, each typed
getter returns its built-in default: `showGrid` returns `true`, `gridFine`
returns `4`, `objectLineWidth` returns `2.0`, and `runCount` returns `0`;
all four getters are total functions, so no failure is surfaced. -/
theorem getters_default_when_key_absent (s : Store)
    (h1 : s.value "Interface/ShowGrid" = none)
    (h2 : s.value "Interface/GridFine" = none)
    (h3 : s.value "Interface/ObjectLineWidth" = none)
    (h4 : s.value "Install/RunCount" = none) :
    showGrid s = true ∧ gridFine s = 4 ∧ objectLineWidth s = 2 ∧ runCount s = 0 := by
  refine ⟨?_, ?_, ?_, ?_⟩
  · simp [showGrid, Store.getBool, h1]
  · simp [gridFine, Store.getInt, h2]
  · simp [objectLineWidth, Store.getReal, h3]
  · simp [runCount, Store.getInt, h4]

/-- Witness for C7: the empty store has none of the four keys, and the
getters return the documented defaults there. -/
theorem getters_default_when_key_absent_witness :
    showGrid [] = true ∧ gridFine [] = 4 ∧ objectLineWidth [] = 2 ∧ runCount [] = 0 :=
  getters_default_when_key_absent [] rfl rfl rfl rfl

/-- Helper: the legacy reconstruction is the elementwise pairing of the two
lists (`zip` truncates at the shorter list, and is empty when `names` is). -/
theorem objectTypesFromLegacy_eq_zip (names colors : List String) :
    objectTypesFromLegacy names colors =
      (names.zip colors).map (fun p => ObjectType.mk p.1 p.2) := by
  unfold objectTypesFromLegacy
  rcases names with _ | ⟨n, ns⟩
  · simp
  · rw [if_neg (by simp)]
    apply List.ext_getElem
    · simp
    · intro i h1 h2
      have hi : i < min (n :: ns).length colors.length := by simpa using h1
      have hn : i < (n :: ns).length := lt_of_lt_of_le hi (Nat.min_le_left _ _)
      have hc : i < colors.length := lt_of_lt_of_le hi (Nat.min_le_right _ _)
      simp only [List.getElem_map, List.getElem_range, List.getElem_zip]
      rw [List.getD_eq_getElem _ _ hn, List.getD_eq_getElem _ _ hc]

/-- **C2.** When reading the object-types file fails at startup, the
object-type list is rebuilt from the legacy lists `ObjectTypes/Names` and
`ObjectTypes/Colors`: its length is the minimum of the two lengths, the
i-th entry pairs the i-th name with the i-th color for every index below
that minimum, and an empty names list yields an empty object-type list. -/
theorem legacy_objectTypes_reconstruction (names colors : List String) :
    (objectTypesFromLegacy names colors).length = min names.length colors.length
    ∧ (∀ (i : Nat) (hn : i < names.length) (hc : i < colors.length),
        (objectTypesFromLegacy names colors)[i]? =
          some (ObjectType.mk names[i] colors[i]))
    ∧ (names = [] → objectTypesFromLegacy names colors = []) := by
  rw [objectTypesFromLegacy_eq_zip]
  refine ⟨by simp, ?_, by rintro rfl; simp⟩
  intro i hn hc
  have hz : i < (names.zip colors).length := by simp; omega
  rw [List.getElem?_map, List.getElem?_eq_getElem hz]
  simp [List.getElem_zip]

/-- Witness for C2: reconstructing from names `["a", "b"]` and colors
`["red"]` yields a single object type pairing `"a"` with `"red"`. -/
theorem legacy_objectTypes_reconstruction_witness :
    (objectTypesFromLegacy ["a", "b"] ["red"])[0]? = some (ObjectType.mk "a" "red") :=
  (legacy_objectTypes_reconstruction ["a", "b"] ["red"]).2.1 0 (by decide) (by decide)

/-- **C3.** In the startup migration (session file is the default one), the
legacy keys `recentFiles` and `MapEditor/MapStates` are removed exactly
when the session save succeeds: on success neither key is contained in the
resulting store, and on failure the store is returned unchanged, so the
migration can run again. -/
theorem migration_removes_legacy_keys_iff_save_succeeds (s : Store) (saveOk : Bool) :
    (saveOk = true →
      Store.contains (migrateRecentFilesStep s true saveOk) "recentFiles" = false
      ∧ Store.contains (migrateRecentFilesStep s true saveOk) "MapEditor/MapStates" = false)
    ∧ (saveOk = false → migrateRecentFilesStep s true saveOk = s) := by
  constructor
  · rintro rfl
    unfold migrateRecentFilesStep
    simp only [if_pos trivial]
    constructor
    · have h1 : Store.value (Store.remove s "recentFiles") "recentFiles" = none :=
        Store.value_remove_of_removed s _ _ (Or.inl rfl)
      have h2 := Store.value_remove_none_mono
        (Store.remove s "recentFiles") "MapEditor/MapStates" "recentFiles" h1
      simp [Store.contains, h2]
    · have h2 : Store.value
          (Store.remove (Store.remove s "recentFiles") "MapEditor/MapStates")
          "MapEditor/MapStates" = none :=
        Store.value_remove_of_removed _ _ _ (Or.inl rfl)
      simp [Store.contains, h2]
  · rintro rfl
    rfl

/-- Witness for C3: on a store holding only the key `recentFiles`, a
successful save leaves the key removed, and a failed save leaves the store
unchanged. -/
theorem migration_removes_legacy_keys_iff_save_succeeds_witness :
    Store.contains
      (migrateRecentFilesStep [("recentFiles", QVariant.vBool true)] true true)
      "recentFiles" = false
    ∧ migrateRecentFilesStep [("recentFiles", QVariant.vBool true)] true false
      = [("recentFiles", QVariant.vBool true)] :=
  ⟨((migration_removes_legacy_keys_iff_save_succeeds
      [("recentFiles", QVariant.vBool true)] true).1 rfl).1,
   (migration_removes_legacy_keys_iff_save_succeeds
      [("recentFiles", QVariant.vBool true)] false).2 rfl⟩

/-- **C9.** `shouldShowDonationDialog` returns `true` exactly when the user
is not a patron, the run count is at least 7, and the stored
donation-dialog date is valid and on or before the current date; in
particular it returns `false` whenever the user is a patron, the run count
is below 7, or the stored date is invalid. -/
theorem shouldShowDonationDialog_spec (s : Store) (today : Int) :
    shouldShowDonationDialog s today = true ↔
      isPatron s = false ∧ 7 ≤ runCount s ∧
        ∃ d, donationDialogTime s = some d ∧ d ≤ today := by
  unfold shouldShowDonationDialog
  rcases hd : donationDialogTime s with _ | d <;>
    by_cases hp : isPatron s <;>
    by_cases hr : runCount s < 7 <;>
    simp [hp, hr] <;>
    omega

/-- Helper: once the single-shot timer is armed for deadline `d`, further
`saveSession` calls strictly before `d` change nothing. -/
theorem runSaveCalls_stable (d w : Nat) (ts : List Nat)
    (h : ∀ t ∈ ts, t < d) :
    runSaveCalls ⟨some d, w⟩ ts = ⟨some d, w⟩ := by
  induction ts with
  | nil => rfl
  | cons t ts ih =>
      have hnl : ¬ d ≤ t := Nat.not_le.mpr (h t (List.mem_cons_self t ts))
      show runSaveCalls (saveSession t (tickTo t ⟨some d, w⟩)) ts = _
      have h1 : tickTo t ⟨some d, w⟩ = ⟨some d, w⟩ := by simp [tickTo, hnl]
      rw [h1]
      exact ih (fun t' ht' => h t' (List.mem_cons_of_mem _ ht'))

/-- **C4.** `saveSession` while the single-shot timer is active starts no
new timer (it is the identity); consequently a burst of `saveSession`
calls within one second of the first one performs no write while the burst
lasts, leaves the timer armed for the deadline set by the first call, and
results in exactly one session write when that timer fires. -/
theorem saveSession_coalesces (t0 w : Nat) (ts : List Nat)
    (h : ∀ t ∈ ts, t0 ≤ t ∧ t < t0 + 1000) :
    (∀ (now : Nat) (st : SessionTimerState),
        st.deadline.isSome = true → saveSession now st = st)
    ∧ runSaveCalls ⟨none, w⟩ (t0 :: ts) = ⟨some (t0 + 1000), w⟩
    ∧ (tickTo (t0 + 1000) (runSaveCalls ⟨none, w⟩ (t0 :: ts))).writes = w + 1 := by
  have hrun : runSaveCalls ⟨none, w⟩ (t0 :: ts) = ⟨some (t0 + 1000), w⟩ := by
    show runSaveCalls (saveSession t0 (tickTo t0 ⟨none, w⟩)) ts = _
    exact runSaveCalls_stable _ _ _ (fun t ht => (h t ht).2)
  refine ⟨?_, hrun, ?_⟩
  · intro now st hst
    rcases st with ⟨_ | d, wr⟩
    · simp at hst
    · rfl
  · rw [hrun]
    simp [tickTo, saveSessionNow]

/-- Witness for C4: three calls at times 5, 100 and 900 ms leave one armed
timer and no write, and the timer firing at 1005 ms produces exactly one
write. -/
theorem saveSession_coalesces_witness :
    runSaveCalls ⟨none, 0⟩ [5, 100, 900] = ⟨some 1005, 0⟩
    ∧ (tickTo 1005 (runSaveCalls ⟨none, 0⟩ [5, 100, 900])).writes = 1 := by
  have h := saveSession_coalesces 5 0 [100, 900] (by decide)
  exact ⟨h.2.1, h.2.2⟩

/-- **C5.** When the watcher reports the object-types file changed: if its
last-modified timestamp equals the recorded timestamp of the application's
own last save, the in-memory object types are kept and nothing is emitted;
otherwise a successful read replaces the whole list in one assignment and
emits the change notification, while a failed read keeps the previous
object types and emits nothing. -/
theorem objectTypes_reload_guarded (lm ls : Option Nat)
    (r : Option (List ObjectType)) (cur : List ObjectType) :
    (lm = ls → objectTypesFileChangedOnDisk lm ls r cur = (cur, false))
    ∧ (lm ≠ ls → ∀ tys, r = some tys →
        objectTypesFileChangedOnDisk lm ls r cur = (tys, true))
    ∧ (lm ≠ ls → r = none →
        objectTypesFileChangedOnDisk lm ls r cur = (cur, false)) :=
  ⟨fun h => by simp [objectTypesFileChangedOnDisk, h],
   fun h tys hr => by simp [objectTypesFileChangedOnDisk, h, hr],
   fun h hr => by simp [objectTypesFileChangedOnDisk, h, hr]⟩

/-- Witness for C5: a matching timestamp skips the reload, a differing one
replaces the list on a successful read and keeps it on a failed read. -/
theorem objectTypes_reload_guarded_witness :
    objectTypesFileChangedOnDisk (some 1) (some 1)
      (some [ObjectType.mk "a" "red"]) [] = ([], false)
    ∧ objectTypesFileChangedOnDisk (some 2) (some 1)
      (some [ObjectType.mk "a" "red"]) [] = ([ObjectType.mk "a" "red"], true)
    ∧ objectTypesFileChangedOnDisk (some 2) (some 1)
      none [ObjectType.mk "a" "red"] = ([ObjectType.mk "a" "red"], false) :=
  ⟨(objectTypes_reload_guarded (some 1) (some 1) _ _).1 rfl,
   (objectTypes_reload_guarded (some 2) (some 1) _ _).2.1 (by decide) _ rfl,
   (objectTypes_reload_guarded (some 2) (some 1) _ _).2.2 (by decide) rfl⟩

theorem Store.getStringList_setValue_self (s : Store) (k : String)
    (l : List String) :
    Store.getStringList (Store.setValue s k (QVariant.vStrList l)) k = l := by
  unfold Store.getStringList
  rw [Store.value_setValue_self]

theorem Store.getStringList_setValue_other (s : Store) (k k' : String)
    (v : QVariant) (h : k' ≠ k) :
    Store.getStringList (Store.setValue s k v) k' = Store.getStringList s k' := by
  unfold Store.getStringList
  rw [Store.value_setValue_other s k k' v h]

/-- Helper: updating one plugin's state keeps the key list duplicate-free. -/
theorem setPluginState_keys_nodup (m : PluginStateMap) (f : String)
    (st : PluginState) (h : (m.map Prod.fst).Nodup) :
    ((setPluginState m f st).map Prod.fst).Nodup := by
  unfold setPluginState
  rw [List.map_cons]
  refine List.Nodup.cons ?_ ?_
  · intro hf
    simp only [List.mem_map] at hf
    obtain ⟨p, hp, hpf⟩ := hf
    have hne := (List.mem_filter.mp hp).2
    simp only [decide_eq_true_eq] at hne
    exact hne hpf
  · exact h.sublist ((List.filter_sublist m).map Prod.fst)

/-- Helper: with duplicate-free keys, the recorded state is `st` exactly
when the pair is in the map. -/
theorem PluginStateMap.stateOf_eq_some_iff (m : PluginStateMap) (f : String)
    (st : PluginState) (h : (m.map Prod.fst).Nodup) :
    PluginStateMap.stateOf m f = some st ↔ (f, st) ∈ m := by
  induction m with
  | nil => simp [PluginStateMap.stateOf]
  | cons p t ih =>
      rcases p with ⟨p1, p2⟩
      rw [List.map_cons, List.nodup_cons] at h
      by_cases hpf : p1 = f
      · subst hpf
        have hkey : p1 ∉ List.map Prod.fst t := h.1
        have hnotin : (p1, st) ∉ t := fun hmem =>
          hkey (List.mem_map_of_mem Prod.fst hmem)
        have hs : PluginStateMap.stateOf ((p1, p2) :: t) p1 = some p2 := by
          unfold PluginStateMap.stateOf
          rw [List.find?_cons_of_pos _ (by simp)]
          rfl
        rw [hs]
        constructor
        · intro h2
          have hps : p2 = st := Option.some.inj h2
          rw [← hps]
          exact List.mem_cons_self _ _
        · intro hmem
          rcases List.mem_cons.mp hmem with heq | hmem2
          · rw [Prod.mk.injEq] at heq
            rw [heq.2]
          · exact absurd hmem2 hnotin
      · have hs : PluginStateMap.stateOf ((p1, p2) :: t) f
            = PluginStateMap.stateOf t f := by
          unfold PluginStateMap.stateOf
          rw [List.find?_cons_of_neg _ (by simp [hpf])]
        rw [hs, ih h.2]
        simp only [List.mem_cons, Prod.mk.injEq]
        constructor
        · exact fun hm => Or.inr hm
        · rintro (⟨h1, -⟩ | hm)
          · exact absurd h1.symm hpf
          · exact hm

/-- Helper: membership in the rebuilt list of file names with state `st`. -/
theorem mem_keys_filter_state (m : PluginStateMap) (f : String)
    (st : PluginState) (h : (m.map Prod.fst).Nodup) :
    (f ∈ (m.filter (fun p => p.2 = st)).map (fun p => p.1) ↔
      PluginStateMap.stateOf m f = some st) := by
  rw [PluginStateMap.stateOf_eq_some_iff m f st h]
  simp only [List.mem_map, List.mem_filter, decide_eq_true_eq]
  constructor
  · rintro ⟨⟨a, b⟩, ⟨hmem, hb⟩, ha⟩
    dsimp at hb ha
    subst hb
    subst ha
    exact hmem
  · intro hmem
    exact ⟨(f, st), ⟨hmem, rfl⟩, rfl⟩

/-- **C6.** After `setPluginEnabled(fileName, enabled)` (keys of the
in-memory state map being duplicate-free), the persisted `Plugins/Enabled`
list contains exactly the file names whose in-memory state is
`PluginEnabled`, the persisted `Plugins/Disabled` list exactly those whose
state is `PluginDisabled`, and a plugin whose state is `PluginDefault` or
`PluginStatic` appears in neither list: both lists are rebuilt in full
from the state map. -/
theorem setPluginEnabled_rebuilds_lists (s : Store) (states : PluginStateMap)
    (fileName f : String) (enabled : Bool)
    (hnd : (states.map Prod.fst).Nodup) :
    (f ∈ Store.getStringList (setPluginEnabled s states fileName enabled).1
        "Plugins/Enabled" ↔
      PluginStateMap.stateOf (setPluginEnabled s states fileName enabled).2 f
        = some PluginState.PluginEnabled)
    ∧ (f ∈ Store.getStringList (setPluginEnabled s states fileName enabled).1
        "Plugins/Disabled" ↔
      PluginStateMap.stateOf (setPluginEnabled s states fileName enabled).2 f
        = some PluginState.PluginDisabled)
    ∧ ((PluginStateMap.stateOf (setPluginEnabled s states fileName enabled).2 f
          = some PluginState.PluginDefault
        ∨ PluginStateMap.stateOf (setPluginEnabled s states fileName enabled).2 f
          = some PluginState.PluginStatic) →
        f ∉ Store.getStringList (setPluginEnabled s states fileName enabled).1
          "Plugins/Enabled"
        ∧ f ∉ Store.getStringList (setPluginEnabled s states fileName enabled).1
          "Plugins/Disabled") := by
  have hnd' := setPluginState_keys_nodup states fileName
    (if enabled then PluginState.PluginEnabled else PluginState.PluginDisabled) hnd
  unfold setPluginEnabled
  dsimp only
  refine ⟨?_, ?_, ?_⟩
  · rw [Store.getStringList_setValue_self, mem_keys_filter_state _ _ _ hnd']
  · rw [Store.getStringList_setValue_other _ _ _ _ (by decide),
      Store.getStringList_setValue_self, mem_keys_filter_state _ _ _ hnd']
  · intro hst
    constructor
    · rw [Store.getStringList_setValue_self, mem_keys_filter_state _ _ _ hnd']
      intro hmem
      rcases hst with h1 | h1 <;> simp [hmem] at h1
    · rw [Store.getStringList_setValue_other _ _ _ _ (by decide),
        Store.getStringList_setValue_self, mem_keys_filter_state _ _ _ hnd']
      intro hmem
      rcases hst with h1 | h1 <;> simp [hmem] at h1

/-- Witness for C6: enabling plugin `"q"` next to a static plugin `"p"`
puts `"q"` in the persisted enabled list exactly as recorded in memory. -/
theorem setPluginEnabled_rebuilds_lists_witness :
    ("q" ∈ Store.getStringList
        (setPluginEnabled [] [("p", PluginState.PluginStatic)] "q" true).1
        "Plugins/Enabled" ↔
      PluginStateMap.stateOf
        (setPluginEnabled [] [("p", PluginState.PluginStatic)] "q" true).2 "q"
        = some PluginState.PluginEnabled) :=
  (setPluginEnabled_rebuilds_lists [] [("p", PluginState.PluginStatic)]
    "q" "q" true (by decide)).1

/-- Helper: `setLastPath` on the project-path key leaves the
recent-projects list untouched. -/
theorem getStringList_setLastPath_project (s : Store) (fileName : String) :
    Store.getStringList (setLastPath s "LastPaths/Project" fileName)
      "Project/RecentProjects"
      = Store.getStringList s "Project/RecentProjects" := by
  unfold setLastPath
  split
  · rfl
  · exact Store.getStringList_setValue_other _ _ _ _ (by decide)

/-- **C8.** After `addRecentProject(fileName)`, when the cleaned absolute
path of `fileName` is non-empty, the persisted `Project/RecentProjects`
list has that path as its first element, contains it exactly once, and has
length at most `MaxRecentFiles`; when the cleaned absolute path is empty,
the persisted list is unchanged. -/
theorem addRecentProject_spec (cleanAbs : String → String) (s : Store)
    (fileName : String) :
    (cleanAbs fileName ≠ "" →
      (Store.getStringList (addRecentProject cleanAbs s fileName)
          "Project/RecentProjects").head? = some (cleanAbs fileName)
      ∧ (Store.getStringList (addRecentProject cleanAbs s fileName)
          "Project/RecentProjects").count (cleanAbs fileName) = 1
      ∧ (Store.getStringList (addRecentProject cleanAbs s fileName)
          "Project/RecentProjects").length ≤ MaxRecentFiles)
    ∧ (cleanAbs fileName = "" →
      Store.getStringList (addRecentProject cleanAbs s fileName)
          "Project/RecentProjects"
        = Store.getStringList s "Project/RecentProjects") := by
  have hres : Store.getStringList (addRecentProject cleanAbs s fileName)
      "Project/RecentProjects"
      = addToRecentFileList (cleanAbs fileName)
          (Store.getStringList s "Project/RecentProjects") := by
    unfold addRecentProject
    dsimp only
    rw [Store.getStringList_setValue_self, getStringList_setLastPath_project]
  constructor
  · intro hne
    have hie : (cleanAbs fileName).isEmpty = false := by
      cases hb : (cleanAbs fileName).isEmpty
      · rfl
      · exact absurd ((String.isEmpty_iff _).mp hb) hne
    rw [hres]
    unfold addToRecentFileList
    rw [if_neg (by simp [hie])]
    dsimp only
    set files1 := (Store.getStringList s "Project/RecentProjects").filter
      (fun f => f ≠ cleanAbs fileName) with hf1
    have hnotin : cleanAbs fileName ∉ files1 := by
      intro hmem
      have hmf := (List.mem_filter.mp hmem).2
      simp at hmf
    have hcount1 : files1.count (cleanAbs fileName) = 0 :=
      List.count_eq_zero.mpr hnotin
    have htake : (cleanAbs fileName :: files1).take MaxRecentFiles
        = cleanAbs fileName :: files1.take 7 := rfl
    refine ⟨?_, ?_, ?_⟩
    · rw [htake]
      rfl
    · rw [htake, List.count_cons_self]
      have hle : (files1.take 7).count (cleanAbs fileName)
          ≤ files1.count (cleanAbs fileName) :=
        (List.take_sublist 7 files1).count_le _
      omega
    · exact List.length_take_le _ _
  · intro heq
    rw [hres, heq]
    unfold addToRecentFileList
    rw [if_pos (by decide)]

/-- Witness for C8: with the identity path cleanup, adding `"a"` to an
empty store puts it at the head of the persisted list; with a cleanup
returning the empty path, the persisted list is unchanged. -/
theorem addRecentProject_spec_witness :
    (Store.getStringList (addRecentProject (fun x => x) [] "a")
        "Project/RecentProjects").head? = some "a"
    ∧ Store.getStringList (addRecentProject (fun _ => "") [] "b")
        "Project/RecentProjects"
      = Store.getStringList [] "Project/RecentProjects" :=
  ⟨((addRecentProject_spec (fun x => x) [] "a").1 (by decide)).1,
   (addRecentProject_spec (fun _ => "") [] "b").2 rfl⟩

/-- Helper: the current object-types file path is never the empty string
(an empty stored value is replaced by the non-empty default path). -/
theorem objectTypesFile_ne_empty (s : Store) (dataLoc : String) :
    objectTypesFile s dataLoc ≠ "" := by
  unfold objectTypesFile
  dsimp only
  split
  · intro h
    have hlen := congrArg String.length h
    rw [String.length_append] at hlen
    have h16 : ("/objecttypes.xml" : String).length = 16 := rfl
    have h0 : ("" : String).length = 0 := rfl
    rw [h16, h0] at hlen
    omega
  · rename_i hne
    intro h
    exact hne (by rw [h]; decide)

/-- Helper: the same, in `Bool` form. -/
theorem objectTypesFile_isEmpty_false (s : Store) (dataLoc : String) :
    (objectTypesFile s dataLoc).isEmpty = false := by
  cases hb : (objectTypesFile s dataLoc).isEmpty
  · rfl
  · exact absurd ((String.isEmpty_iff _).mp hb) (objectTypesFile_ne_empty s dataLoc)

/-- **C10.** `setObjectTypesFile(fileName)` is a no-op (store and watched
paths unchanged) when `fileName` equals the current `objectTypesFile()`;
otherwise it writes the new value under `Storage/ObjectTypesFile` without
touching any other key, stops watching the previous path, starts watching
the new one, and watches any other path exactly as before. -/
theorem setObjectTypesFile_spec (dataLoc : String) (s : Store)
    (w : List String) (fileName : String) :
    (fileName = objectTypesFile s dataLoc →
      setObjectTypesFile dataLoc s w fileName = (s, w))
    ∧ (fileName ≠ objectTypesFile s dataLoc →
      Store.value (setObjectTypesFile dataLoc s w fileName).1
          "Storage/ObjectTypesFile" = some (QVariant.vStr fileName)
      ∧ (∀ k, k ≠ "Storage/ObjectTypesFile" →
          Store.value (setObjectTypesFile dataLoc s w fileName).1 k
            = Store.value s k)
      ∧ fileName ∈ (setObjectTypesFile dataLoc s w fileName).2
      ∧ objectTypesFile s dataLoc ∉ (setObjectTypesFile dataLoc s w fileName).2
      ∧ (∀ p, p ≠ objectTypesFile s dataLoc → p ≠ fileName →
          (p ∈ (setObjectTypesFile dataLoc s w fileName).2 ↔ p ∈ w))) := by
  constructor
  · intro heq
    unfold setObjectTypesFile
    dsimp only
    rw [if_pos heq.symm]
  · intro hne
    have hne' : objectTypesFile s dataLoc ≠ fileName := fun h => hne h.symm
    unfold setObjectTypesFile
    dsimp only
    rw [if_neg hne', if_neg (by simp [objectTypesFile_isEmpty_false s dataLoc])]
    refine ⟨Store.value_setValue_self _ _ _, ?_, ?_, ?_, ?_⟩
    · intro k hk
      exact Store.value_setValue_other _ _ _ _ hk
    · unfold addPath
      split
      · rename_i hc
        exact hc
      · exact List.mem_append_right _ (by simp)
    · unfold addPath removePath
      split
      · intro hmem
        have hmf := (List.mem_filter.mp hmem).2
        simp at hmf
      · intro hmem
        rcases List.mem_append.mp hmem with h1 | h1
        · have hmf := (List.mem_filter.mp h1).2
          simp at hmf
        · rw [List.mem_singleton] at h1
          exact hne' h1
    · intro p hp1 hp2
      unfold addPath removePath
      split
      · simp [List.mem_filter, hp1]
      · simp [List.mem_filter, List.mem_append, hp1, hp2]

/-- Witness for C10: setting the current default path is a no-op, and
setting a fresh path `"f"` adds it to the watched set. -/
theorem setObjectTypesFile_spec_witness :
    setObjectTypesFile "d" [] [] "d/objecttypes.xml" = ([], [])
    ∧ "f" ∈ (setObjectTypesFile "d" [] [] "f").2 :=
  ⟨(setObjectTypesFile_spec "d" [] [] "d/objecttypes.xml").1 (by decide),
   ((setObjectTypesFile_spec "d" [] [] "f").2 (by decide)).2.2.1⟩

end Tiled
